import Mathlib

/-!
Verification of the `log-archive` tool (`log_archive/__main__.py`).

The Python module is shallowly embedded: paths are lists of components,
the filesystem interactions of each function are made explicit (the
`rglob` traversal becomes an input listing, deletions and writes become
events or explicit result fields), and machine-level concerns that the
claims do not touch (UTF-8 encoding of audit lines, OS-level I/O
failures outside the modelled ones) are kept abstract.
-/

namespace LogArchive

/-- A filesystem path, as its list of components (`pathlib` parts). -/
abbrev FsPath := List String

/-- Source constant `ARCHIVE_PREFIX = "logs_archive_"`. -/
def ARCHIVE_PREFIX : String := "logs_archive_"

/-- Source constant `ARCHIVE_EXT = ".tar.gz"`. -/
def ARCHIVE_EXT : String := ".tar.gz"

/-- Source constant `DEFAULT_OUTPUT_DIR_NAME = "archives"`. -/
def DEFAULT_OUTPUT_DIR_NAME : String := "archives"

/-- Source constant `AUDIT_LOG_NAME = "archive.log"`. -/
def AUDIT_LOG_NAME : String := "archive.log"

/-- `fnmatch` on a single path segment, over character lists: `*` matches
any (possibly empty) run of characters, `?` matches exactly one
character, any other pattern character matches itself.  Character
classes (`[...]`) are not used by this repository's patterns and are
treated as literal characters. -/
def fnmatchChars : List Char → List Char → Bool
  | [], s => s.isEmpty
  | '*' :: ps, s => s.tails.any fun t => fnmatchChars ps t
  | '?' :: ps, s =>
    match s with
    | [] => false
    | _ :: s' => fnmatchChars ps s'
  | p :: ps, s =>
    match s with
    | [] => false
    | c :: s' => p == c && fnmatchChars ps s'

/-- `fnmatch` on one path segment, as strings. -/
def fnmatchSeg (pat seg : String) : Bool :=
  fnmatchChars pat.toList seg.toList

/-- Split a string at every occurrence of a separator character
(Python `str.split(sep)` for a one-character separator). -/
def splitOnCharAux (sep : Char) : List Char → List Char → List String
  | [], acc => [String.mk acc.reverse]
  | c :: cs, acc =>
    if c == sep then String.mk acc.reverse :: splitOnCharAux sep cs []
    else splitOnCharAux sep cs (c :: acc)

/-- Split a string at a separator character. -/
def splitOnChar (sep : Char) (s : String) : List String :=
  splitOnCharAux sep s.toList []

/-- `PurePath.match(pat)` for a relative pattern: the pattern's segments
are matched, right-aligned, against the trailing segments of the
relative path, each segment via `fnmatch`. -/
def pathMatch (rel : FsPath) (pat : String) : Bool :=
  let parts := splitOnChar '/' pat
  decide (parts.length ≤ rel.length) &&
    ((rel.drop (rel.length - parts.length)).zip parts).all fun x => fnmatchSeg x.2 x.1

/-- `should_exclude(path, root, builtin_exclusions, include_patterns,
exclude_patterns)`.  The built-in exclusions are tested first:
`path.relative_to(excl)` succeeds exactly when `excl` is a component
prefix of `path`.  Then exclude patterns are tested against the
root-relative path, then (when the include list is non-empty) the
include patterns.  `path.relative_to(root)` is modelled as dropping the
root components; at every call site (the `rglob` loop of
`enumerate_files`) `root` is a prefix of `path`, so the `ValueError`
branch of `relative_to` is unreachable. -/
def should_exclude (path root : FsPath) (builtin_exclusions : List FsPath)
    (include_patterns exclude_patterns : List String) : Bool :=
  if builtin_exclusions.any fun excl => excl.isPrefixOf path then true
  else
    let rel := path.drop root.length
    if exclude_patterns.any fun pat => pathMatch rel pat then true
    else if !include_patterns.isEmpty then
      !(include_patterns.any fun pat => pathMatch rel pat)
    else false

/-- One entry yielded by `log_directory.rglob("*")`: its path relative
to `log_directory` (a non-empty component list) and whether it is a
directory.  The traversal order of `rglob` is operating-system
dependent; a filesystem state therefore supplies the listing as an
ordered list. -/
structure RgEntry where
  rel : FsPath
  isDir : Bool
deriving Repr, DecidableEq

/-- `enumerate_files(log_directory, output_dir, audit_log_path,
include_patterns, exclude_patterns)`: walk the `rglob` listing in
order; directories are skipped (the source calls `should_exclude` on
them only as a fast path and `continue`s either way); files are kept
exactly when `should_exclude` is false, with built-in exclusions
`{output_dir, audit_log_path}`. -/
def enumerate_files (log_directory output_dir audit_log_path : FsPath)
    (include_patterns exclude_patterns : List String) :
    List RgEntry → List FsPath
  | [] => []
  | e :: rest =>
    let path := log_directory ++ e.rel
    if e.isDir then
      enumerate_files log_directory output_dir audit_log_path
        include_patterns exclude_patterns rest
    else if should_exclude path log_directory [output_dir, audit_log_path]
        include_patterns exclude_patterns then
      enumerate_files log_directory output_dir audit_log_path
        include_patterns exclude_patterns rest
    else
      path :: enumerate_files log_directory output_dir audit_log_path
        include_patterns exclude_patterns rest

theorem should_exclude_eq_false_iff (path root : FsPath) (builtins : List FsPath)
    (inc exc : List String) :
    should_exclude path root builtins inc exc = false ↔
      ((builtins.any fun excl => excl.isPrefixOf path) = false ∧
        (exc.any fun pat => pathMatch (path.drop root.length) pat) = false ∧
        (inc = [] ∨ (inc.any fun pat => pathMatch (path.drop root.length) pat) = true)) := by
  unfold should_exclude
  by_cases hb : (builtins.any fun excl => excl.isPrefixOf path) = true
  · simp [hb]
  · simp only [Bool.not_eq_true] at hb
    by_cases he : (exc.any fun pat => pathMatch (path.drop root.length) pat) = true
    · simp [hb, he]
    · simp only [Bool.not_eq_true] at he
      cases inc with
      | nil => simp [hb, he]
      | cons p ps =>
        simp only [hb, he, List.isEmpty_cons, Bool.not_false, if_true, if_false,
          Bool.false_eq_true, Bool.not_eq_false', List.any_eq_true, List.mem_cons,
          ne_eq, reduceCtorEq, not_false_eq_true, true_and, List.any_eq_false]
        by_cases hp1 : pathMatch (path.drop root.length) p = true
        · simp [hp1]
        · simp only [Bool.not_eq_true] at hp1
          simp [hp1]


theorem mem_enumerate_files {log_directory output_dir audit_log_path : FsPath}
    {inc exc : List String} {listing : List RgEntry} {p : FsPath}
    (hp : p ∈ enumerate_files log_directory output_dir audit_log_path inc exc listing) :
    ∃ e ∈ listing, e.isDir = false ∧ p = log_directory ++ e.rel ∧
      should_exclude p log_directory [output_dir, audit_log_path] inc exc = false := by
  induction listing with
  | nil => simp [enumerate_files] at hp
  | cons e rest ih =>
    rw [enumerate_files] at hp
    by_cases hd : e.isDir = true
    · rw [if_pos hd] at hp
      obtain ⟨e', he', h⟩ := ih hp
      exact ⟨e', List.mem_cons_of_mem _ he', h⟩
    · rw [if_neg hd] at hp
      by_cases hex : should_exclude (log_directory ++ e.rel) log_directory
          [output_dir, audit_log_path] inc exc = true
      · rw [if_pos hex] at hp
        obtain ⟨e', he', h⟩ := ih hp
        exact ⟨e', List.mem_cons_of_mem _ he', h⟩
      · rw [if_neg hex] at hp
        rcases List.mem_cons.mp hp with hpe | hp
        · refine ⟨e, List.mem_cons_self e rest, Bool.eq_false_iff.mpr hd, hpe, ?_⟩
          rw [hpe]
          exact Bool.eq_false_iff.mpr hex
        · obtain ⟨e', he', h⟩ := ih hp
          exact ⟨e', List.mem_cons_of_mem _ he', h⟩

/-- C1: for every filesystem listing and every combination of include
and exclude patterns, `enumerate_files` never yields a path under the
output directory (component-prefix sense, equality included) nor the
audit log path: the built-in exclusions are tested before, and
independently of, the user-supplied patterns. -/
theorem enumerate_files_no_self_inclusion
    (log_directory output_dir audit_log_path : FsPath)
    (inc exc : List String) (listing : List RgEntry) (p : FsPath)
    (hp : p ∈ enumerate_files log_directory output_dir audit_log_path inc exc listing) :
    output_dir.isPrefixOf p = false ∧ p ≠ audit_log_path := by
  obtain ⟨e, _, _, _, hexcl⟩ := mem_enumerate_files hp
  rw [should_exclude_eq_false_iff] at hexcl
  obtain ⟨hb, -, -⟩ := hexcl
  simp only [List.any_eq_false, List.mem_cons, List.mem_singleton] at hb
  refine ⟨?_, ?_⟩
  · exact Bool.eq_false_iff.mpr (hb output_dir (by simp))
  · intro hpe
    have := hb audit_log_path (by simp)
    rw [hpe] at this
    simp [List.isPrefixOf_iff_prefix] at this

/-- Concrete run for C1: a log tree whose `archives` subdirectory holds
the audit log; `app.log` is yielded while nothing under `archives` is. -/
theorem enumerate_files_no_self_inclusion_witness :
    (["r", "logs", "app.log"] ∈
      enumerate_files ["r", "logs"] ["r", "logs", "archives"]
        ["r", "logs", "archives", "archive.log"] [] []
        [⟨["app.log"], false⟩, ⟨["archives"], true⟩,
          ⟨["archives", "archive.log"], false⟩]) ∧
    (["r", "logs", "archives"].isPrefixOf ["r", "logs", "app.log"] = false ∧
      ["r", "logs", "app.log"] ≠ ["r", "logs", "archives", "archive.log"]) :=
  ⟨by decide,
    enumerate_files_no_self_inclusion ["r", "logs"] ["r", "logs", "archives"]
      ["r", "logs", "archives", "archive.log"] [] []
      [⟨["app.log"], false⟩, ⟨["archives"], true⟩,
        ⟨["archives", "archive.log"], false⟩]
      ["r", "logs", "app.log"] (by decide)⟩

/-- C7: when the include-pattern list is non-empty, every path yielded
by `enumerate_files` matches at least one include pattern (the
exclude patterns having been applied first inside `should_exclude`). -/
theorem enumerate_files_include_patterns
    (log_directory output_dir audit_log_path : FsPath)
    (inc exc : List String) (listing : List RgEntry) (p : FsPath)
    (hinc : inc ≠ [])
    (hp : p ∈ enumerate_files log_directory output_dir audit_log_path inc exc listing) :
    ∃ pat ∈ inc, pathMatch (p.drop log_directory.length) pat = true := by
  obtain ⟨e, _, _, _, hexcl⟩ := mem_enumerate_files hp
  rw [should_exclude_eq_false_iff] at hexcl
  obtain ⟨-, -, hincl⟩ := hexcl
  rcases hincl with h | h
  · exact absurd h hinc
  · exact List.any_eq_true.mp h

/-- Concrete run for C7: with include pattern `*.log`, the yielded file
`app.log` matches it while `notes.txt` is filtered out. -/
theorem enumerate_files_include_patterns_witness :
    (["*.log"] ≠ ([] : List String) ∧
      ["r", "app.log"] ∈
        enumerate_files ["r"] ["r", "archives"] ["r", "archives", "archive.log"]
          ["*.log"] [] [⟨["app.log"], false⟩, ⟨["notes.txt"], false⟩]) ∧
    ∃ pat ∈ ["*.log"], pathMatch (["r", "app.log"].drop ["r"].length) pat = true :=
  ⟨⟨by decide, by decide⟩,
    enumerate_files_include_patterns ["r"] ["r", "archives"]
      ["r", "archives", "archive.log"] ["*.log"] []
      [⟨["app.log"], false⟩, ⟨["notes.txt"], false⟩] ["r", "app.log"]
      (by decide) (by decide)⟩

/-- Strict lexicographic order on lists of naturals. -/
def natListLt : List Nat → List Nat → Bool
  | [], [] => false
  | [], _ :: _ => true
  | _ :: _, [] => false
  | a :: as, b :: bs => decide (a < b) || (a == b && natListLt as bs)

/-- A path component as its list of code points, so the ordering below
is computable by the kernel. -/
def strKey (s : String) : List Nat :=
  s.toList.map Char.toNat

/-- Ordering on relative paths, lexicographic by component (components
compared by code points), written to state the spec's sortedness
requirement (it has no counterpart in the source, which never sorts
the enumeration). -/
def relPathLe (p q : FsPath) : Bool :=
  keyListLe (p.map strKey) (q.map strKey)
where
  keyListLe : List (List Nat) → List (List Nat) → Bool
    | [], _ => true
    | _ :: _, [] => false
    | a :: p, b :: q => natListLt a b || (a == b && keyListLe p q)

/-- Spec-side predicate for C3: the file list is sorted ascending by
path relative to the log directory. -/
def sortedByRelPath (log_directory : FsPath) : List FsPath → Bool
  | [] => true
  | [_] => true
  | p :: q :: rest =>
    relPathLe (p.drop log_directory.length) (q.drop log_directory.length) &&
      sortedByRelPath log_directory (q :: rest)

/-- Counterexample to C3: `rglob` yields entries in directory-listing
order, which the operating system does not sort; on a listing that
reports `b.log` before `a.log`, `enumerate_files` (which never sorts)
returns them in that order, not ascending by relative path. -/
theorem enumerate_files_not_sorted :
    enumerate_files ["r"] ["r", "archives"] ["r", "archives", "archive.log"] [] []
        [⟨["b.log"], false⟩, ⟨["a.log"], false⟩] =
      [["r", "b.log"], ["r", "a.log"]] ∧
    sortedByRelPath ["r"]
        (enumerate_files ["r"] ["r", "archives"] ["r", "archives", "archive.log"] [] []
          [⟨["b.log"], false⟩, ⟨["a.log"], false⟩]) = false := by
  constructor
  · decide
  · decide

/-- C3 (amended): `enumerate_files` is a deterministic function of the
traversal listing and preserves its order — its output is a sublist of
the listing's paths in traversal order; that order is whatever `rglob`
reports and is not sorted by relative path. -/
theorem enumerate_files_preserves_traversal_order
    (log_directory output_dir audit_log_path : FsPath)
    (inc exc : List String) (listing : List RgEntry) :
    List.Sublist
      (enumerate_files log_directory output_dir audit_log_path inc exc listing)
      (listing.map fun e => log_directory ++ e.rel) := by
  induction listing with
  | nil => simp [enumerate_files]
  | cons e rest ih =>
    rw [enumerate_files, List.map_cons]
    by_cases hd : e.isDir = true
    · rw [if_pos hd]
      exact List.Sublist.cons _ ih
    · rw [if_neg hd]
      by_cases hex : should_exclude (log_directory ++ e.rel) log_directory
          [output_dir, audit_log_path] inc exc = true
      · rw [if_pos hex]
        exact List.Sublist.cons _ ih
      · rw [if_neg hex]
        exact List.Sublist.cons₂ _ ih

/-- One candidate file handed to `create_archive`: its absolute path
and whether the `tar.add` call for it raises an I/O error (vanished
file, unreadable file, failed write). -/
structure SrcFile where
  path : FsPath
  addFails : Bool
deriving Repr, DecidableEq

/-- The adding loop inside the `with tarfile.open(...)` block of
`create_archive`: each file contributes one member named by its
source-root-relative path (`f.relative_to(source_root)`); the loop
stops at the first failing add.  Returns the members written so far and
whether every add succeeded. -/
def tarAddAll (source_root : FsPath) : List SrcFile → List FsPath × Bool
  | [] => ([], true)
  | f :: fs =>
    if f.addFails then ([], false)
    else
      let r := tarAddAll source_root fs
      (f.path.drop source_root.length :: r.1, r.2)

/-- `create_archive(source_root, files, dest_archive)`.  The source
opens `dest_archive` itself — the final, canonical path — with
`tarfile.open(dest_archive, "w:gz")`, so the destination file exists
from that moment on; an exception from an add propagates out of the
`with` block, which closes but never deletes the file.  The first
component is what is observable at `dest_archive` after the call: the
member names in order, and whether the archive was completed (the
`with` block exited normally).  The second component is the call's
outcome: the source returns only `elapsed_ms`; wall-clock timing is not
modelled, so the measured duration enters as the parameter
`elapsed_ms`. -/
def create_archive (source_root : FsPath) (files : List SrcFile) (elapsed_ms : Nat) :
    (List FsPath × Bool) × Except Unit Nat :=
  let r := tarAddAll source_root files
  (r, if r.2 then Except.ok elapsed_ms else Except.error ())

theorem tarAddAll_eq (source_root : FsPath) (files : List SrcFile) :
    tarAddAll source_root files =
      ((files.takeWhile fun f => !f.addFails).map fun f => f.path.drop source_root.length,
        files.all fun f => !f.addFails) := by
  induction files with
  | nil => rfl
  | cons f fs ih =>
    by_cases hf : f.addFails = true
    · simp [tarAddAll, hf]
    · simp only [Bool.not_eq_true] at hf
      simp [tarAddAll, hf, ih]

/-- Counterexample to C2: a run in which adding `app.log` fails.
`create_archive` propagates the error, yet the destination — the final
archive path — holds an unfinalized, zero-member partial archive:
nothing was written to a temporary file, and nothing was renamed into
place or deleted on failure. -/
theorem create_archive_partial_at_final_path :
    (create_archive ["r", "logs"] [⟨["r", "logs", "app.log"], true⟩] 7).2 =
        Except.error () ∧
      (create_archive ["r", "logs"] [⟨["r", "logs", "app.log"], true⟩] 7).1 =
        ([], false) :=
  ⟨rfl, rfl⟩

/-- C2 (amended): `create_archive` writes directly into the final
destination path.  After every run the destination holds the archive
members added before the first failure, finalized exactly when every
add succeeded; on failure the error propagates and the partial file
stays observable at the final path (there is no temporary file, rename,
or cleanup in the source). -/
theorem create_archive_writes_in_place
    (source_root : FsPath) (files : List SrcFile) (elapsed_ms : Nat) :
    (create_archive source_root files elapsed_ms).1 =
      ((files.takeWhile fun f => !f.addFails).map fun f => f.path.drop source_root.length,
        files.all fun f => !f.addFails) ∧
    (create_archive source_root files elapsed_ms).2 =
      (if files.all fun f => !f.addFails then Except.ok elapsed_ms
        else Except.error ()) := by
  unfold create_archive
  rw [tarAddAll_eq]
  exact ⟨rfl, rfl⟩

/-- `compute_file_count_and_size(archive_path)`: re-opens the archive
with `tarfile.open(..., "r:gz")`, counts its members, and reports the
on-disk size (`stat().st_size`).  An absent or unfinalized (partially
written) archive fails to read, modelled as `none`; the byte size is
not derivable from member names and enters as `size_on_disk`. -/
def compute_file_count_and_size (dest : Option (List FsPath × Bool))
    (size_on_disk : Nat) : Option (Nat × Nat) :=
  match dest with
  | some (members, true) => some (members.length, size_on_disk)
  | _ => none

/-- Counterexample to C4: two successful runs that add different
numbers of entries (one vs. two) return identical values, so the value
`create_archive` returns cannot be the pair (fileCount, durationMillis)
— it is the elapsed duration alone. -/
theorem create_archive_result_omits_file_count :
    (create_archive ["r"] [⟨["r", "a.log"], false⟩] 5).2 =
        (create_archive ["r"] [⟨["r", "a.log"], false⟩, ⟨["r", "b.log"], false⟩] 5).2 ∧
      (create_archive ["r"] [⟨["r", "a.log"], false⟩] 5).1.1.length = 1 ∧
      (create_archive ["r"] [⟨["r", "a.log"], false⟩, ⟨["r", "b.log"], false⟩]
          5).1.1.length = 2 :=
  ⟨rfl, rfl, rfl⟩

/-- C4 (amended): `create_archive` returns only the elapsed duration in
milliseconds; a write failure propagates as an I/O error; the entry
count — the number of files handed in — is recovered only by re-reading
the finished archive with `compute_file_count_and_size`. -/
theorem create_archive_duration_and_count
    (source_root : FsPath) (files : List SrcFile) (elapsed_ms size_on_disk : Nat) :
    (create_archive source_root files elapsed_ms).2 =
      (if files.all fun f => !f.addFails then Except.ok elapsed_ms
        else Except.error ()) ∧
    ((files.all fun f => !f.addFails) = true →
      compute_file_count_and_size (some (create_archive source_root files elapsed_ms).1)
          size_on_disk =
        some (files.length, size_on_disk)) := by
  have h := tarAddAll_eq source_root files
  constructor
  · show (if (tarAddAll source_root files).2 = true then Except.ok elapsed_ms
      else Except.error ()) = _
    rw [h]
  · intro hall
    show compute_file_count_and_size (some (tarAddAll source_root files))
        size_on_disk = _
    rw [h, hall]
    have htake : (files.takeWhile fun f => !f.addFails) = files :=
      List.takeWhile_eq_self_iff.mpr (List.all_eq_true.mp hall)
    simp [compute_file_count_and_size, htake]

/-- Concrete run for C4 (amended): archiving two files and re-reading
the archive reports entry count 2 alongside the on-disk size. -/
theorem create_archive_duration_and_count_witness :
    (([⟨["r", "a.log"], false⟩, ⟨["r", "b.log"], false⟩] : List SrcFile).all
        fun f => !f.addFails) = true ∧
      compute_file_count_and_size
          (some (create_archive ["r"]
            [⟨["r", "a.log"], false⟩, ⟨["r", "b.log"], false⟩] 5).1) 42 =
        some (2, 42) :=
  ⟨by decide,
    (create_archive_duration_and_count ["r"]
      [⟨["r", "a.log"], false⟩, ⟨["r", "b.log"], false⟩] 5 42).2 (by decide)⟩

/-- Observable actions of a run: directory creation, console output,
archive creation, an attempted append to the audit log, and file
deletion.  Console output does not mutate the filesystem; every other
event does. -/
inductive Event where
  | mkdirP (dir : FsPath)
  | printOut (line : String)
  | printErr (line : String)
  | createArchiveAt (dest : FsPath)
  | auditAppend (path : FsPath) (line : String)
  | unlink (file : FsPath)
deriving Repr, DecidableEq

/-- Whether an event mutates the filesystem. -/
def Event.isMutation : Event → Bool
  | .mkdirP _ => true
  | .printOut _ => false
  | .printErr _ => false
  | .createArchiveAt _ => true
  | .auditAppend _ _ => true
  | .unlink _ => true

/-- Whether an event is an attempted audit-log append. -/
def Event.isAuditAppend : Event → Bool
  | .auditAppend _ _ => true
  | _ => false

/-- Render a path the way `print(path)` does, with `/` separators. -/
def pathStr : FsPath → String
  | [] => ""
  | [a] => a
  | a :: rest => a ++ "/" ++ pathStr rest

/-- One entry of the output directory as `apply_retention` sees it via
`output_dir.glob(...)`: its file name, its modification time in
seconds, and whether it is a regular file. -/
structure OutFile where
  name : String
  mtime : Int
  isFile : Bool
deriving Repr, DecidableEq

/-- String prefix test over the underlying characters. -/
def strStartsWith (s pre : String) : Bool :=
  pre.toList.isPrefixOf s.toList

/-- String suffix test over the underlying characters. -/
def strEndsWith (s suf : String) : Bool :=
  suf.toList.isSuffixOf s.toList

/-- The glob `logs_archive_*.tar.gz` used by `apply_retention`: the
single `*` matches any run of characters inside the file name, so a
name matches exactly when it carries the archive prefix and extension
around some (possibly empty) middle. -/
def archiveNameMatches (s : String) : Bool :=
  strStartsWith s ARCHIVE_PREFIX && strEndsWith s ARCHIVE_EXT &&
    decide ( ARCHIVE_PREFIX.length + ARCHIVE_EXT.length ≤ s.length)

/-- The sort key of `apply_retention`: ascending modification time. -/
def mtimeLE (a b : OutFile) : Prop := a.mtime ≤ b.mtime

instance : DecidableRel mtimeLE := fun a b => Int.decLe a.mtime b.mtime

instance : IsTotal OutFile mtimeLE := ⟨fun a b => Int.le_total a.mtime b.mtime⟩

instance : IsTrans OutFile mtimeLE := ⟨fun _ _ _ h1 h2 => le_trans h1 h2⟩

/-- The `archives` list built at the top of `apply_retention`: entries
matching the naming glob that are regular files, sorted ascending by
modification time.  Python's `sorted` is a stable sort; every stable
sort computes the same list, here realized by insertion sort. -/
def sortedArchives (outFiles : List OutFile) : List OutFile :=
  List.insertionSort mtimeLE
    (outFiles.filter fun f => archiveNameMatches f.name && f.isFile)

/-- Python's `l[:-k]` for an arbitrary integer `k`: a negative stop
index counts from the end (clamped at zero), `-0` is `0`, and a
positive stop index (from a negative `k`) takes from the front. -/
def pySliceDropLast (l : List α) (k : Int) : List α :=
  if 0 < k then l.take (l.length - k.toNat)
  else if k = 0 then []
  else l.take (-k).toNat

/-- Result of `apply_retention`: the computed deletion list, the output
directory contents after the call, and the emitted events. -/
structure RetentionResult where
  to_delete : List OutFile
  dirAfter : List OutFile
  events : List Event
deriving Repr

/-- `apply_retention(output_dir, retention_days, retention_count,
dry_run, verbose)` over the listing of the output directory.  Age mode
deletes archives with modification time before `now − days·86400`;
count mode, when more than `retention_count` archives exist, deletes
all but the `retention_count` newest (`archives[:-retention_count]` of
the mtime-ascending list); otherwise nothing is deleted.  Each victim
is printed when `verbose or dry_run` and unlinked when not `dry_run`.
Deletions are modelled as succeeding; the source wraps each `unlink` in
`try/except` only to downgrade OS errors to warnings. -/
def apply_retention (output_dir : FsPath) (outFiles : List OutFile) (now : Int)
    (retention_days retention_count : Option Int) (dry_run verbose : Bool) :
    RetentionResult :=
  let archives := sortedArchives outFiles
  let to_delete : List OutFile :=
    match retention_days with
    | some d => archives.filter fun p => decide (p.mtime < now - d * 86400)
    | none =>
      match retention_count with
      | some k =>
        if k < (archives.length : Int) then pySliceDropLast archives k else []
      | none => []
  let events := to_delete.flatMap fun p =>
    (if verbose || dry_run then
      [Event.printOut ("Retention: delete " ++ pathStr (output_dir ++ [p.name]))]
    else []) ++
    (if dry_run then [] else [Event.unlink (output_dir ++ [p.name])])
  let dirAfter :=
    if dry_run then outFiles
    else outFiles.filter fun f => !(to_delete.any fun d => d.name == f.name)
  ⟨to_delete, dirAfter, events⟩

/-- C9: with no retention configuration (both `retention_days` and
`retention_count` absent), `apply_retention` computes an empty deletion
set, emits nothing, and leaves every file of the output directory
unchanged. -/
theorem apply_retention_none_noop (output_dir : FsPath) (outFiles : List OutFile)
    (now : Int) (dry_run verbose : Bool) :
    (apply_retention output_dir outFiles now none none dry_run verbose).to_delete = [] ∧
    (apply_retention output_dir outFiles now none none dry_run verbose).events = [] ∧
    (apply_retention output_dir outFiles now none none dry_run verbose).dirAfter =
      outFiles := by
  refine ⟨rfl, rfl, ?_⟩
  show (if dry_run then outFiles
    else outFiles.filter fun f => !(([] : List OutFile).any fun d => d.name == f.name)) =
      outFiles
  cases dry_run with
  | true => rfl
  | false => simp

/-- C6: in count mode, with K matching archives present and a retention
count k < K, `apply_retention` deletes exactly the K − k oldest
archives by modification time: the deletion list is the length-(K − k)
head of the mtime-ascending archive list, every deleted archive is no
newer than every kept one, and the matching archives remaining in the
directory are exactly the k most recently modified ones. -/
theorem apply_retention_count_keeps_most_recent
    (output_dir : FsPath) (outFiles : List OutFile) (now : Int) (k : Int)
    (verbose : Bool) (hk : 0 < k)
    (hK : k < ((sortedArchives outFiles).length : Int))
    (hnodup : (outFiles.map OutFile.name).Nodup) :
    (apply_retention output_dir outFiles now none (some k) false verbose).to_delete =
      (sortedArchives outFiles).take ((sortedArchives outFiles).length - k.toNat) ∧
    (apply_retention output_dir outFiles now none (some k) false
        verbose).to_delete.length =
      (sortedArchives outFiles).length - k.toNat ∧
    ((sortedArchives outFiles).drop
        ((sortedArchives outFiles).length - k.toNat)).length = k.toNat ∧
    (∀ d ∈ (apply_retention output_dir outFiles now none (some k) false
        verbose).to_delete,
      ∀ q ∈ (sortedArchives outFiles).drop
          ((sortedArchives outFiles).length - k.toNat),
        d.mtime ≤ q.mtime) ∧
    List.Perm
      ((apply_retention output_dir outFiles now none (some k) false
          verbose).dirAfter.filter fun f => archiveNameMatches f.name && f.isFile)
      ((sortedArchives outFiles).drop ((sortedArchives outFiles).length - k.toNat)) := by
  have hklen : k.toNat < (sortedArchives outFiles).length := by omega
  have hdel : (apply_retention output_dir outFiles now none (some k) false
      verbose).to_delete =
      (sortedArchives outFiles).take ((sortedArchives outFiles).length - k.toNat) := by
    show (if k < ((sortedArchives outFiles).length : Int)
        then pySliceDropLast (sortedArchives outFiles) k else []) = _
    rw [if_pos hK]
    show (if 0 < k
        then (sortedArchives outFiles).take ((sortedArchives outFiles).length - k.toNat)
        else _) = _
    rw [if_pos hk]
  have hsorted : List.Sorted mtimeLE (sortedArchives outFiles) :=
    List.sorted_insertionSort mtimeLE _
  refine ⟨hdel, ?_, ?_, ?_, ?_⟩
  · rw [hdel, List.length_take]
    omega
  · rw [List.length_drop]
    omega
  · rw [hdel]
    intro d hd q hq
    exact hsorted.rel_of_mem_take_of_mem_drop hd hq
  · have hdir : (apply_retention output_dir outFiles now none (some k) false
        verbose).dirAfter =
        outFiles.filter fun f =>
          !((apply_retention output_dir outFiles now none (some k) false
            verbose).to_delete.any fun d => d.name == f.name) := rfl
    rw [hdir, hdel]
    set archives := sortedArchives outFiles with harchdef
    set n := archives.length - k.toNat with hndef
    set T := archives.take n with hTdef
    set D := archives.drop n with hDdef
    set delPred : OutFile → Bool :=
      fun f => !(T.any fun d => d.name == f.name) with hdelPred
    set matched : OutFile → Bool :=
      fun f => archiveNameMatches f.name && f.isFile with hmatched
    have hcand : archives.Perm (outFiles.filter matched) :=
      List.perm_insertionSort mtimeLE _
    have hcand_nodup : ((outFiles.filter matched).map OutFile.name).Nodup :=
      List.Nodup.sublist (List.Sublist.map OutFile.name (List.filter_sublist outFiles))
        hnodup
    have harch_nodup : (archives.map OutFile.name).Nodup :=
      (List.Perm.nodup_iff (hcand.map OutFile.name)).mpr hcand_nodup
    have hsplit : T ++ D = archives := List.take_append_drop n archives
    have hdisj : ∀ d ∈ T, ∀ q ∈ D, d.name ≠ q.name := by
      intro d hd q hq heq
      have hra : ((T ++ D).map OutFile.name).Nodup := by
        rw [hsplit]; exact harch_nodup
      rw [List.map_append, List.nodup_append] at hra
      exact hra.2.2 (List.mem_map_of_mem OutFile.name hd)
        (heq ▸ List.mem_map_of_mem OutFile.name hq)
    have h1 : T.filter delPred = [] := by
      rw [List.filter_eq_nil_iff]
      intro d hd
      have hany : (T.any fun x => x.name == d.name) = true :=
        List.any_eq_true.mpr ⟨d, hd, by simp⟩
      simp [hdelPred, hany]
    have h2 : D.filter delPred = D := by
      rw [List.filter_eq_self]
      intro q hq
      have hany : (T.any fun x => x.name == q.name) = false := by
        rw [List.any_eq_false]
        intro d hd
        simp [hdisj d hd q hq]
      simp [hdelPred, hany]
    have htail : archives.filter delPred = D := by
      calc archives.filter delPred = (T ++ D).filter delPred := by rw [hsplit]
        _ = T.filter delPred ++ D.filter delPred := List.filter_append _ _
        _ = D := by rw [h1, h2, List.nil_append]
    have hgoal : ((outFiles.filter delPred).filter matched).Perm
        ((outFiles.filter matched).filter delPred) := by
      rw [List.filter_filter, List.filter_filter]
      have : (fun a => matched a && delPred a) = fun a => delPred a && matched a :=
        funext fun a => Bool.and_comm _ _
      rw [this]
    exact hgoal.trans ((hcand.symm.filter delPred).trans (htail ▸ List.Perm.refl _))

/-- Output directory listing for the concrete C6 run: three archives
with distinct modification times, the audit log, and a subdirectory. -/
def c6Files : List OutFile :=
  [⟨"logs_archive_20250101_000000.tar.gz", 1, true⟩,
    ⟨"logs_archive_20250103_000000.tar.gz", 3, true⟩,
    ⟨"logs_archive_20250102_000000.tar.gz", 2, true⟩,
    ⟨"archive.log", 9, true⟩,
    ⟨"notes", 0, false⟩]

/-- Concrete run for C6: of three archives, retention count 1 deletes
the two oldest and keeps the single most recent. -/
theorem apply_retention_count_keeps_most_recent_witness :
    ((0 : Int) < 1 ∧ (1 : Int) < ((sortedArchives c6Files).length : Int) ∧
      (c6Files.map OutFile.name).Nodup) ∧
    ((apply_retention ["out"] c6Files 100 none (some 1) false false).to_delete =
      (sortedArchives c6Files).take ((sortedArchives c6Files).length - (1 : Int).toNat) ∧
    (apply_retention ["out"] c6Files 100 none (some 1) false
        false).to_delete.length =
      (sortedArchives c6Files).length - (1 : Int).toNat ∧
    ((sortedArchives c6Files).drop
        ((sortedArchives c6Files).length - (1 : Int).toNat)).length = (1 : Int).toNat ∧
    (∀ d ∈ (apply_retention ["out"] c6Files 100 none (some 1) false
        false).to_delete,
      ∀ q ∈ (sortedArchives c6Files).drop
          ((sortedArchives c6Files).length - (1 : Int).toNat),
        d.mtime ≤ q.mtime) ∧
    List.Perm
      ((apply_retention ["out"] c6Files 100 none (some 1) false
          false).dirAfter.filter fun f => archiveNameMatches f.name && f.isFile)
      ((sortedArchives c6Files).drop
        ((sortedArchives c6Files).length - (1 : Int).toNat))) :=
  ⟨⟨by decide, by decide, by decide⟩,
    apply_retention_count_keeps_most_recent ["out"] c6Files 100 1 false
      (by decide) (by decide) (by decide)⟩

/-- Round `a / b` (for `b > 0`) to the nearest integer, ties to even —
the rounding `%.1f` performs on the exactly representable values that
reach it here. -/
def roundHalfEven (a b : Nat) : Nat :=
  let q := a / b
  let r := a % b
  if 2 * r < b then q
  else if b < 2 * r then q + 1
  else if q % 2 = 0 then q else q + 1

/-- Python's `f"{size:.1f}{unit}"` for the exact value `num / den`. -/
def fmtOneDecimal (num den : Nat) (u : String) : String :=
  let t := roundHalfEven (10 * num) den
  toString (t / 10) ++ "." ++ toString (t % 10) ++ u

/-- The unit loop of `human_size`.  The Python float `size` is exactly
`num_bytes / den` throughout: converting an integer below 2^53 to a
double is exact, and each division by 1024.0 merely decrements the
exponent, so the loop's comparisons and the final one-decimal
formatting operate on this exact rational (for inputs at or above 2^53
the initial conversion may round the mantissa, which cannot change any
comparison against the powers of 1024 below 2^53, hence never the
chosen unit).  The list argument walks `units`; the source compares
`unit == units[-1]`, literally `"TB"`, and the match on `[]` is the
source's unreachable fall-through return. -/
def humanSizeGo (num den : Nat) : List String → String
  | [] => fmtOneDecimal num den "TB"
  | u :: us =>
    if num < 1024 * den ∨ u = "TB" then fmtOneDecimal num den u
    else humanSizeGo num (den * 1024) us

/-- `human_size(num_bytes)`. -/
def human_size (num_bytes : Nat) : String :=
  humanSizeGo num_bytes 1 ["B", "KB", "MB", "GB", "TB"]

/-- C10: `human_size` renders every byte count as a number with exactly
one decimal digit followed by exactly one unit among B, KB, MB, GB,
TB; every count below 1024 uses B, and every count of at least 1024^4
uses TB — the loop never divides past TB. -/
theorem human_size_format (n : Nat) :
    ∃ t : Nat, ∃ u : String,
      human_size n = toString (t / 10) ++ "." ++ toString (t % 10) ++ u ∧
      t % 10 < 10 ∧
      u ∈ ["B", "KB", "MB", "GB", "TB"] ∧
      (n < 1024 → u = "B") ∧
      (1024 ^ 4 ≤ n → u = "TB") := by
  have hpow : (1024 : Nat) ^ 4 = 1099511627776 := by norm_num
  by_cases h1 : n < 1024
  · refine ⟨roundHalfEven (10 * n) 1, "B", ?_, by omega, by simp, fun _ => rfl, ?_⟩
    · show humanSizeGo n 1 ["B", "KB", "MB", "GB", "TB"] = _
      show (if n < 1024 * 1 ∨ "B" = "TB" then fmtOneDecimal n 1 "B"
        else humanSizeGo n (1 * 1024) ["KB", "MB", "GB", "TB"]) = _
      rw [if_pos (Or.inl (by omega))]; rfl
    · intro h
      rw [hpow] at h
      omega
  · by_cases h2 : n < 1024 * 1024
    · refine ⟨roundHalfEven (10 * n) (1 * 1024), "KB", ?_, by omega, by simp,
        fun h => absurd h h1, ?_⟩
      · show humanSizeGo n 1 ["B", "KB", "MB", "GB", "TB"] = _
        show (if n < 1024 * 1 ∨ "B" = "TB" then fmtOneDecimal n 1 "B"
          else humanSizeGo n (1 * 1024) ["KB", "MB", "GB", "TB"]) = _
        rw [if_neg (by push_neg; exact ⟨by omega, by decide⟩)]
        show (if n < 1024 * (1 * 1024) ∨ "KB" = "TB" then fmtOneDecimal n (1 * 1024) "KB"
          else humanSizeGo n (1 * 1024 * 1024) ["MB", "GB", "TB"]) = _
        rw [if_pos (Or.inl (by omega))]; rfl
      · intro h
        rw [hpow] at h
        omega
    · by_cases h3 : n < 1024 * 1024 * 1024
      · refine ⟨roundHalfEven (10 * n) (1 * 1024 * 1024), "MB", ?_, by omega, by simp,
          fun h => absurd h h1, ?_⟩
        · show humanSizeGo n 1 ["B", "KB", "MB", "GB", "TB"] = _
          show (if n < 1024 * 1 ∨ "B" = "TB" then fmtOneDecimal n 1 "B"
            else humanSizeGo n (1 * 1024) ["KB", "MB", "GB", "TB"]) = _
          rw [if_neg (by push_neg; exact ⟨by omega, by decide⟩)]
          show (if n < 1024 * (1 * 1024) ∨ "KB" = "TB" then fmtOneDecimal n (1 * 1024) "KB"
            else humanSizeGo n (1 * 1024 * 1024) ["MB", "GB", "TB"]) = _
          rw [if_neg (by push_neg; exact ⟨by omega, by decide⟩)]
          show (if n < 1024 * (1 * 1024 * 1024) ∨ "MB" = "TB"
              then fmtOneDecimal n (1 * 1024 * 1024) "MB"
            else humanSizeGo n (1 * 1024 * 1024 * 1024) ["GB", "TB"]) = _
          rw [if_pos (Or.inl (by omega))]; rfl
        · intro h
          rw [hpow] at h
          omega
      · by_cases h4 : n < 1024 * 1024 * 1024 * 1024
        · refine ⟨roundHalfEven (10 * n) (1 * 1024 * 1024 * 1024), "GB", ?_, by omega,
            by simp, fun h => absurd h h1, ?_⟩
          · show humanSizeGo n 1 ["B", "KB", "MB", "GB", "TB"] = _
            show (if n < 1024 * 1 ∨ "B" = "TB" then fmtOneDecimal n 1 "B"
              else humanSizeGo n (1 * 1024) ["KB", "MB", "GB", "TB"]) = _
            rw [if_neg (by push_neg; exact ⟨by omega, by decide⟩)]
            show (if n < 1024 * (1 * 1024) ∨ "KB" = "TB"
                then fmtOneDecimal n (1 * 1024) "KB"
              else humanSizeGo n (1 * 1024 * 1024) ["MB", "GB", "TB"]) = _
            rw [if_neg (by push_neg; exact ⟨by omega, by decide⟩)]
            show (if n < 1024 * (1 * 1024 * 1024) ∨ "MB" = "TB"
                then fmtOneDecimal n (1 * 1024 * 1024) "MB"
              else humanSizeGo n (1 * 1024 * 1024 * 1024) ["GB", "TB"]) = _
            rw [if_neg (by push_neg; exact ⟨by omega, by decide⟩)]
            show (if n < 1024 * (1 * 1024 * 1024 * 1024) ∨ "GB" = "TB"
                then fmtOneDecimal n (1 * 1024 * 1024 * 1024) "GB"
              else humanSizeGo n (1 * 1024 * 1024 * 1024 * 1024) ["TB"]) = _
            rw [if_pos (Or.inl (by omega))]; rfl
          · intro h
            rw [hpow] at h
            omega
        · refine ⟨roundHalfEven (10 * n) (1 * 1024 * 1024 * 1024 * 1024), "TB", ?_,
            by omega, by simp, fun h => absurd h h1, fun _ => rfl⟩
          show humanSizeGo n 1 ["B", "KB", "MB", "GB", "TB"] = _
          show (if n < 1024 * 1 ∨ "B" = "TB" then fmtOneDecimal n 1 "B"
            else humanSizeGo n (1 * 1024) ["KB", "MB", "GB", "TB"]) = _
          rw [if_neg (by push_neg; exact ⟨by omega, by decide⟩)]
          show (if n < 1024 * (1 * 1024) ∨ "KB" = "TB"
              then fmtOneDecimal n (1 * 1024) "KB"
            else humanSizeGo n (1 * 1024 * 1024) ["MB", "GB", "TB"]) = _
          rw [if_neg (by push_neg; exact ⟨by omega, by decide⟩)]
          show (if n < 1024 * (1 * 1024 * 1024) ∨ "MB" = "TB"
              then fmtOneDecimal n (1 * 1024 * 1024) "MB"
            else humanSizeGo n (1 * 1024 * 1024 * 1024) ["GB", "TB"]) = _
          rw [if_neg (by push_neg; exact ⟨by omega, by decide⟩)]
          show (if n < 1024 * (1 * 1024 * 1024 * 1024) ∨ "GB" = "TB"
              then fmtOneDecimal n (1 * 1024 * 1024 * 1024) "GB"
            else humanSizeGo n (1 * 1024 * 1024 * 1024 * 1024) ["TB"]) = _
          rw [if_neg (by push_neg; exact ⟨by omega, by decide⟩)]
          show (if n < 1024 * (1 * 1024 * 1024 * 1024 * 1024) ∨ "TB" = "TB"
              then fmtOneDecimal n (1 * 1024 * 1024 * 1024 * 1024) "TB"
            else humanSizeGo n (1 * 1024 * 1024 * 1024 * 1024 * 1024) []) = _
          rw [if_pos (Or.inr rfl)]; rfl

/-- Concrete run for C10: `human_size` applied at 3 bytes. -/
theorem human_size_format_witness :
    ∃ t : Nat, ∃ u : String,
      human_size 3 = toString (t / 10) ++ "." ++ toString (t % 10) ++ u ∧
      t % 10 < 10 ∧
      u ∈ ["B", "KB", "MB", "GB", "TB"] ∧
      (3 < 1024 → u = "B") ∧
      (1024 ^ 4 ≤ 3 → u = "TB") :=
  human_size_format 3

/-- Python `str.strip()` over the characters of a segment. -/
def trimChars (cs : List Char) : List Char :=
  ((cs.dropWhile Char.isWhitespace).reverse.dropWhile Char.isWhitespace).reverse

/-- Python `str.strip()`. -/
def strTrim (s : String) : String :=
  String.mk (trimChars s.toList)

/-- `split_patterns(csv)`: `None` or the empty string give the empty
list; otherwise split at commas, strip whitespace, and drop empty
pieces. -/
def split_patterns (csv : Option String) : List String :=
  match csv with
  | none => []
  | some s =>
    if s = "" then []
    else ((splitOnChar ',' s).map strTrim).filter fun p => p ≠ ""

/-- Python `a or b` on lists: the first operand wins unless empty. -/
def pyOrList (a b : List String) : List String :=
  if a.isEmpty then b else a

/-- Python `a or b` on optional paths: the first operand wins unless
`None`. -/
def pyOrPath (a b : Option FsPath) : Option FsPath :=
  match a with
  | some x => some x
  | none => b

/-- `resolve_output_dir(log_directory, output_dir)`: the explicit
output directory, or `<log_directory>/archives`.  The trailing
`.resolve()` is the identity here: paths in the model are already
resolved component lists. -/
def resolve_output_dir (log_directory : FsPath) (output_dir : Option FsPath) : FsPath :=
  output_dir.getD (log_directory ++ [DEFAULT_OUTPUT_DIR_NAME])

/-- Command-line arguments as `parse_args` delivers them (argument
parsing itself is outside the modelled core): `include_csv` and
`exclude_csv` carry the raw comma-separated `--include`/`--exclude`
values. -/
structure Args where
  log_directory : Option FsPath
  output_dir : Option FsPath
  retention_days : Option Int
  retention_count : Option Int
  include_csv : Option String
  exclude_csv : Option String
  dry_run : Bool
  verbose : Bool
deriving Repr, DecidableEq

/-- The typed view of the loaded TOML configuration after `main`'s
`isinstance` checks: absent or ill-typed keys appear as `none`/`[]`
(config discovery itself is outside the modelled core). -/
structure Config where
  log_directory : Option FsPath
  output_dir : Option FsPath
  include_patterns : List String
  exclude_patterns : List String
  retention_days : Option Int
  retention_count : Option Int
deriving Repr, DecidableEq

/-- Outcome of the archiving block of `main`'s `try`: success with the
measured duration, a `PermissionError`, or any other exception. -/
inductive CreateOutcome where
  | ok (elapsed_ms : Nat)
  | permError (msg : String)
  | otherError (msg : String)
deriving Repr, DecidableEq

/-- The ambient state a run of `main` observes: the directory test for
the log directory, the `rglob` listing of the log directory, the output
directory contents at retention time, the timestamps drawn from
`_now()`, the outcome of the archiving block, the created archive's
on-disk size, and whether an audit append itself raises. -/
structure World where
  isDir : FsPath → Bool
  listing : List RgEntry
  outDirFiles : List OutFile
  nowStamp : String
  isoStamp : String
  localStamp : String
  now : Int
  createOutcome : CreateOutcome
  archiveSize : Nat
  auditAppendFails : Bool

/-- `build_archive_name(now)` with the strftime stamp abstracted. -/
def build_archive_name (nowStamp : String) : String :=
  ARCHIVE_PREFIX ++ nowStamp ++ ARCHIVE_EXT

/-- The log directory `main` uses: the CLI value, else the config
value (`.resolve()` is the identity on resolved component paths). -/
def resolved_log_dir (args : Args) (config : Config) : FsPath :=
  match args.log_directory with
  | some p => p
  | none => config.log_directory.getD []

/-- Is a supplied retention value non-positive (the validation of
`main`)? -/
def argNonpos : Option Int → Bool
  | none => false
  | some d => decide (d ≤ 0)

/-- Is a config retention value present and positive? -/
def optPos : Option Int → Bool
  | none => false
  | some d => decide (0 < d)

/-- The retention configuration after `main`'s config fallback: CLI
values win; with neither CLI value set, a positive config
`retention_days` is adopted, else a positive config `retention_count`. -/
def effective_retention (args : Args) (config : Config) : Option Int × Option Int :=
  if args.retention_days = none ∧ args.retention_count = none then
    if optPos config.retention_days then (config.retention_days, none)
    else if optPos config.retention_count then (none, config.retention_count)
    else (none, none)
  else (args.retention_days, args.retention_count)

/-- The audit line of a successful run. -/
def audit_success_line (iso localS archive_name : String)
    (file_count size_bytes duration_ms : Nat) : String :=
  iso ++ " | local=" ++ localS ++ " | archive=" ++ archive_name ++
    " | files=" ++ toString file_count ++ " | size=" ++ human_size size_bytes ++
    " | duration_ms=" ++ toString duration_ms ++ "\n"

/-- The audit line of a failed run. -/
def audit_error_line (iso localS archive_name err : String) : String :=
  iso ++ " | local=" ++ localS ++ " | archive=" ++ archive_name ++
    " | ERROR=" ++ err ++ "\n"

/-- The verbose enumeration report of `main` (lines 259–264): the file
count, the first fifty relative paths, and an ellipsis beyond fifty. -/
def verboseEnumPrints (log_dir : FsPath) (files : List FsPath) (verbose : Bool) :
    List Event :=
  if verbose then
    Event.printOut ("Found " ++ toString files.length ++ " files to archive") ::
      ((files.take 50).map fun f =>
        Event.printOut ("  + " ++ pathStr (f.drop log_dir.length))) ++
      (if 50 < files.length then [Event.printOut "  + ..."] else [])
  else []

/-- Result of a run of `main`: the process exit code (`none` when an
exception escapes `main` itself, as happens when the audit append of
the `PermissionError` handler raises) and the ordered events. -/
structure RunResult where
  exit : Option Nat
  events : List Event

/-- `main(argv)` from the point where arguments and configuration are
already in hand (both are delivered by the excluded collaborators
`parse_args` and `load_config`).  The validation gates return exit
code 2; a dry run reports the retention plan and exits 0; otherwise
the archive is written, audited, and retention applied, with
`PermissionError` mapped to exit 3 (its audit append unprotected) and
any other exception to exit 1 (audit append attempted best-effort). -/
def main (args : Args) (config : Config) (w : World) : RunResult :=
  if args.log_directory = none ∧ config.log_directory = none then
    ⟨some 2, [.printErr "Error: log_directory not provided (CLI or config)"]⟩
  else
    let log_dir := resolved_log_dir args config
    if argNonpos args.retention_days then
      ⟨some 2, [.printErr "--retention-days must be a positive integer"]⟩
    else if argNonpos args.retention_count then
      ⟨some 2, [.printErr "--retention-count must be a positive integer"]⟩
    else if !(w.isDir log_dir) then
      ⟨some 2, [.printErr ("Error: " ++ pathStr log_dir ++ " is not a directory")]⟩
    else
      let output_dir := resolve_output_dir log_dir (pyOrPath args.output_dir config.output_dir)
      let audit_log_path := output_dir ++ [AUDIT_LOG_NAME]
      let include_patterns := pyOrList (split_patterns args.include_csv) config.include_patterns
      let exclude_patterns := pyOrList (split_patterns args.exclude_csv) config.exclude_patterns
      let mkdirEvents : List Event := if args.dry_run then [] else [.mkdirP output_dir]
      let archive_name := build_archive_name w.nowStamp
      let archive_path := output_dir ++ [archive_name]
      let files := enumerate_files log_dir output_dir audit_log_path
        include_patterns exclude_patterns w.listing
      let vprints := verboseEnumPrints log_dir files args.verbose
      let ret := effective_retention args config
      if args.dry_run then
        let rr := apply_retention output_dir w.outDirFiles w.now ret.1 ret.2 true args.verbose
        ⟨some 0, mkdirEvents ++ vprints ++ rr.events ++
          [.printOut "Dry run complete. No changes made."]⟩
      else
        match w.createOutcome with
        | .ok elapsed_ms =>
          let file_count := files.length
          let size_bytes := w.archiveSize
          let line := audit_success_line w.isoStamp w.localStamp archive_name
            file_count size_bytes elapsed_ms
          let vcreated : List Event :=
            if args.verbose then
              [.printOut ("Created " ++ pathStr archive_path ++ " (" ++
                toString file_count ++ " files, " ++ human_size size_bytes ++ ", " ++
                toString elapsed_ms ++ " ms)")]
            else []
          let rr := apply_retention output_dir
            (w.outDirFiles ++ [⟨archive_name, w.now, true⟩]) w.now ret.1 ret.2
            false args.verbose
          ⟨some 0, mkdirEvents ++ vprints ++
            [.createArchiveAt archive_path, .auditAppend audit_log_path line] ++
            vcreated ++ rr.events⟩
        | .permError msg =>
          let line := audit_error_line w.isoStamp w.localStamp archive_name msg
          let evs := mkdirEvents ++ vprints ++
            [.createArchiveAt archive_path, .auditAppend audit_log_path line]
          if w.auditAppendFails then ⟨none, evs⟩
          else ⟨some 3, evs ++ [.printErr ("Permission error: " ++ msg)]⟩
        | .otherError msg =>
          let line := audit_error_line w.isoStamp w.localStamp archive_name msg
          ⟨some 1, mkdirEvents ++ vprints ++
            [.createArchiveAt archive_path, .auditAppend audit_log_path line,
              .printErr ("Error: " ++ msg)]⟩

/-- Arguments that omit the log directory everywhere. -/
def c5Args : Args := ⟨none, none, none, none, none, none, false, false⟩

/-- An entirely empty configuration. -/
def c5Config : Config := ⟨none, none, [], [], none, none⟩

/-- A benign world for the invalid-configuration run. -/
def c5World : World :=
  ⟨fun _ => true, [], [], "20250102_030405", "2025-01-02T03:04:05+01:00",
    "2025-01-02 03:04:05", 100, .ok 5, 10, false⟩

/-- Counterexample to C5: the run with no log directory configured
exits with code 2 and never attempts an audit append — the
invalid-configuration paths of `main` return before the audit log path
is even computed. -/
theorem main_exit2_without_audit :
    (main c5Args c5Config c5World).exit = some 2 ∧
      (main c5Args c5Config c5World).events.any Event.isAuditAppend = false :=
  ⟨rfl, rfl⟩

/-- C5 (amended): every run of `main` that exits with code 3
(permission error) or code 1 (unexpected error) attempts an audit
append before returning; the exit-code-2 (invalid configuration) paths
return without attempting one. -/
theorem main_nonzero_exit_attempts_audit (args : Args) (config : Config) (w : World)
    (h : (main args config w).exit = some 3 ∨ (main args config w).exit = some 1) :
    (main args config w).events.any Event.isAuditAppend = true := by
  revert h
  simp only [main]
  split
  · simp
  · split
    · simp
    · split
      · simp
      · split
        · simp
        · split
          · simp
          · split
            · simp
            · split
              · simp
              · intro _
                simp [Event.isAuditAppend]
            · intro _
              simp [Event.isAuditAppend]

/-- Arguments for the concrete permission-denied run. -/
def c5wArgs : Args := ⟨some ["r", "logs"], none, none, none, none, none, false, false⟩

/-- A world whose archiving step raises `PermissionError`. -/
def c5wWorld : World :=
  ⟨fun _ => true, [⟨["app.log"], false⟩], [], "20250102_030405",
    "2025-01-02T03:04:05+01:00", "2025-01-02 03:04:05", 100,
    .permError "denied", 10, false⟩

/-- Concrete run for C5 (amended): a permission failure exits with
code 3 after attempting the audit append. -/
theorem main_nonzero_exit_attempts_audit_witness :
    ((main c5wArgs c5Config c5wWorld).exit = some 3 ∨
      (main c5wArgs c5Config c5wWorld).exit = some 1) ∧
    (main c5wArgs c5Config c5wWorld).events.any Event.isAuditAppend = true :=
  ⟨Or.inl rfl,
    main_nonzero_exit_attempts_audit c5wArgs c5Config c5wWorld (Or.inl rfl)⟩

theorem apply_retention_events_def (od : FsPath) (fs : List OutFile) (now : Int)
    (days cnt : Option Int) (dry v : Bool) :
    (apply_retention od fs now days cnt dry v).events =
      (apply_retention od fs now days cnt dry v).to_delete.flatMap fun p =>
        (if v || dry then
          [Event.printOut ("Retention: delete " ++ pathStr (od ++ [p.name]))]
        else []) ++
        (if dry then [] else [Event.unlink (od ++ [p.name])]) := rfl

theorem verboseEnumPrints_no_mutation (log_dir : FsPath) (files : List FsPath)
    (v : Bool) :
    ∀ e ∈ verboseEnumPrints log_dir files v, e.isMutation = false := by
  intro e he
  unfold verboseEnumPrints at he
  by_cases hv : v = true
  · rw [if_pos hv] at he
    rcases List.mem_cons.mp he with rfl | he'
    · rfl
    · rcases List.mem_append.mp he' with h | h
      · obtain ⟨f, -, rfl⟩ := List.mem_map.mp h
        rfl
      · by_cases h50 : 50 < files.length
        · rw [if_pos h50] at h
          rw [List.mem_singleton.mp h]
          rfl
        · rw [if_neg h50] at h
          simp at h
  · rw [if_neg hv] at he
    simp at he

theorem apply_retention_dry_no_mutation (od : FsPath) (fs : List OutFile) (now : Int)
    (days cnt : Option Int) (v : Bool) :
    ∀ e ∈ (apply_retention od fs now days cnt true v).events, e.isMutation = false := by
  intro e he
  rw [apply_retention_events_def] at he
  obtain ⟨p, -, hin⟩ := List.mem_flatMap.mp he
  simp only [Bool.or_true, if_true, List.append_nil, List.mem_singleton] at hin
  rw [hin]
  rfl

theorem apply_retention_dry_reports (od : FsPath) (fs : List OutFile) (now : Int)
    (days cnt : Option Int) (v : Bool) :
    ∀ f ∈ (apply_retention od fs now days cnt true v).to_delete,
      Event.printOut ("Retention: delete " ++ pathStr (od ++ [f.name])) ∈
        (apply_retention od fs now days cnt true v).events := by
  intro f hf
  rw [apply_retention_events_def]
  refine List.mem_flatMap.mpr ⟨f, hf, ?_⟩
  simp

/-- C8: a dry run with a valid configuration exits with code 0, never
mutates the filesystem (no directory creation, no archive, no audit
append, no deletion), and reports every member of the retention
deletion set it computed. -/
theorem main_dry_run_no_mutation (args : Args) (config : Config) (w : World)
    (hdry : args.dry_run = true)
    (hlog : ¬(args.log_directory = none ∧ config.log_directory = none))
    (hdays : argNonpos args.retention_days = false)
    (hcnt : argNonpos args.retention_count = false)
    (hdir : w.isDir (resolved_log_dir args config) = true) :
    (main args config w).exit = some 0 ∧
    (∀ e ∈ (main args config w).events, e.isMutation = false) ∧
    (∀ f ∈ (apply_retention
          (resolve_output_dir (resolved_log_dir args config)
            (pyOrPath args.output_dir config.output_dir))
          w.outDirFiles w.now (effective_retention args config).1
          (effective_retention args config).2 true args.verbose).to_delete,
      Event.printOut ("Retention: delete " ++
          pathStr (resolve_output_dir (resolved_log_dir args config)
            (pyOrPath args.output_dir config.output_dir) ++ [f.name])) ∈
        (main args config w).events) := by
  simp only [main]
  rw [if_neg hlog, hdays, if_neg Bool.false_ne_true, hcnt, if_neg Bool.false_ne_true,
    hdir, Bool.not_true, if_neg Bool.false_ne_true]
  simp only [hdry, eq_self_iff_true, if_true, List.nil_append]
  refine ⟨trivial, ?_, ?_⟩
  · intro e he
    rcases List.mem_append.mp he with h | h
    · rcases List.mem_append.mp h with h1 | h1
      · exact verboseEnumPrints_no_mutation _ _ _ e h1
      · exact apply_retention_dry_no_mutation _ _ _ _ _ _ e h1
    · rw [List.mem_singleton.mp h]
      rfl
  · intro f hf
    exact List.mem_append_left _
      (List.mem_append_right _ (apply_retention_dry_reports _ _ _ _ _ _ f hf))

/-- Arguments for the concrete dry run. -/
def c8Args : Args := ⟨some ["r", "logs"], none, none, none, none, none, true, false⟩

/-- Configuration contributing a retention count of 1 to the dry run. -/
def c8Config : Config := ⟨none, none, [], [], none, some 1⟩

/-- A world with two archives in the output directory, so the dry run
has a non-empty deletion set to report. -/
def c8World : World :=
  ⟨fun _ => true, [⟨["app.log"], false⟩, ⟨["archives"], true⟩],
    [⟨"logs_archive_20250101_000000.tar.gz", 1, true⟩,
      ⟨"logs_archive_20250102_000000.tar.gz", 2, true⟩],
    "20250103_000000", "2025-01-03T00:00:00+01:00", "2025-01-03 00:00:00",
    100, .ok 5, 10, false⟩

/-- Concrete run for C8: the dry run over `c8World` exits 0, mutates
nothing, and prints its one planned deletion. -/
theorem main_dry_run_no_mutation_witness :
    (c8Args.dry_run = true ∧
      ¬(c8Args.log_directory = none ∧ c8Config.log_directory = none) ∧
      argNonpos c8Args.retention_days = false ∧
      argNonpos c8Args.retention_count = false ∧
      c8World.isDir (resolved_log_dir c8Args c8Config) = true) ∧
    ((main c8Args c8Config c8World).exit = some 0 ∧
      (∀ e ∈ (main c8Args c8Config c8World).events, e.isMutation = false) ∧
      (∀ f ∈ (apply_retention
            (resolve_output_dir (resolved_log_dir c8Args c8Config)
              (pyOrPath c8Args.output_dir c8Config.output_dir))
            c8World.outDirFiles c8World.now (effective_retention c8Args c8Config).1
            (effective_retention c8Args c8Config).2 true c8Args.verbose).to_delete,
        Event.printOut ("Retention: delete " ++
            pathStr (resolve_output_dir (resolved_log_dir c8Args c8Config)
              (pyOrPath c8Args.output_dir c8Config.output_dir) ++ [f.name])) ∈
          (main c8Args c8Config c8World).events)) :=
  ⟨⟨rfl, by decide, rfl, rfl, rfl⟩,
    main_dry_run_no_mutation c8Args c8Config c8World rfl (by decide) rfl rfl rfl⟩

end LogArchive
